import Mathlib

/-!
Verification development for the BSSTraining pricing-rule subsystem.

The TypeScript sources are shallowly embedded:
* JavaScript numbers that the code obtains via `parseFloat` / `parseInt` are
  modelled by their parse result, an `Option ℚ` / `Option Int` (`none` = `NaN`);
  `parseFloat(x) || 0` then becomes `Option.getD · 0` (both `NaN` and `0` map
  to `0`).
* `JSON.parse` is an external runtime primitive; a form field carrying a JSON
  string is modelled by the raw string together with its parse result
  (`none` = the parse throws).  The embedded code inspects exactly what the
  TypeScript inspects.
* String helpers (`toLowerCase`, `trim`, `startsWith`, `includes`,
  `localeCompare`) are modelled on the character list of the string;
  `localeCompare` is modelled as codepoint comparison.
* Display-only currency formatting (`Intl.NumberFormat`, `toFixed`) is
  abstracted to the numeric values being formatted.
-/

/-! ## JavaScript string helpers -/

/-- Model of `String.prototype.trim`: drop whitespace at both ends. -/
def jsTrim (s : String) : String :=
  ⟨((s.data.dropWhile Char.isWhitespace).reverse.dropWhile Char.isWhitespace).reverse⟩

/-- Model of `String.prototype.toLowerCase` (ASCII, as used on tag strings). -/
def jsLower (s : String) : String := ⟨s.data.map Char.toLower⟩

/-- `listStarts l p` : does `l` start with `p`? -/
def listStarts : List Char → List Char → Bool
  | _, [] => true
  | [], _ :: _ => false
  | a :: as, b :: bs => a = b && listStarts as bs

/-- `listHasSub l p` : does `p` occur as a contiguous sublist of `l`? -/
def listHasSub : List Char → List Char → Bool
  | [], p => listStarts [] p
  | a :: as, p => listStarts (a :: as) p || listHasSub as p

/-- Model of `a.startsWith(b)`. -/
def jsStarts (a b : String) : Bool := listStarts a.data b.data

/-- Model of `a.includes(b)` (substring containment). -/
def jsIncludes (a b : String) : Bool := listHasSub a.data b.data

/-! ## Price Calculator

`calculateNewPrice` from `src/app/components/ProductPricingDetails.tsx`
(lines 105-119; identical in `src/unnamed/part_001`):

```
const calculateNewPrice = (originalPrice, type, value) => {
  const original = parseFloat(originalPrice) || 0;
  const amountValue = parseFloat(value) || 0;
  switch (type) {
    case "apply-price": return amountValue;
    case "decrease-fixed": return Math.max(0, original - amountValue);
    case "decrease-percentage": return Math.max(0, original - (original * amountValue / 100));
    default: return original;
  }
};
```
-/

/-- `parseFloat(x) || 0`: an unparsable string (`NaN`) is treated as `0`. -/
def parseFloatOr0 (x : Option ℚ) : ℚ :=
  match x with
  | none => 0
  | some v => v

/-- The price calculator.  `originalPrice` and `value` are lenient numeric
strings, modelled by their `parseFloat` result. -/
def calculateNewPrice (originalPrice : Option ℚ) (type : String) (value : Option ℚ) : ℚ :=
  let original := parseFloatOr0 originalPrice
  let amountValue := parseFloatOr0 value
  if type = "apply-price" then amountValue
  else if type = "decrease-fixed" then max 0 (original - amountValue)
  else if type = "decrease-percentage" then max 0 (original - (original * amountValue / 100))
  else original

/-- Claim C1: for every original-price string and amount string (parsed
leniently, unparsable treated as 0) the price calculator returns the parsed
amount for priceType apply-price; max(0, original − amount) for
decrease-fixed; max(0, original − original × amount / 100) for
decrease-percentage; and the parsed original unchanged for any unknown
priceType. -/
theorem C1_calculateNewPrice_cases (o a : Option ℚ) :
    calculateNewPrice o "apply-price" a = parseFloatOr0 a ∧
    calculateNewPrice o "decrease-fixed" a
      = max 0 (parseFloatOr0 o - parseFloatOr0 a) ∧
    calculateNewPrice o "decrease-percentage" a
      = max 0 (parseFloatOr0 o - parseFloatOr0 o * parseFloatOr0 a / 100) ∧
    ∀ t : String, t ≠ "apply-price" → t ≠ "decrease-fixed" →
      t ≠ "decrease-percentage" → calculateNewPrice o t a = parseFloatOr0 o := by
  refine ⟨rfl, rfl, rfl, ?_⟩
  intro t h1 h2 h3
  simp [calculateNewPrice, h1, h2, h3]

/-- Witness for C1 at concrete inputs (original "25", amount "10",
unknown type "bogus"). -/
theorem C1_witness :
    calculateNewPrice (some 25) "apply-price" (some 10) = 10 ∧
    calculateNewPrice (some 25) "bogus" (some 10) = 25 := by
  refine ⟨?_, ?_⟩
  · have h := (C1_calculateNewPrice_cases (some 25) (some 10)).1
    simpa [parseFloatOr0] using h
  · have h := (C1_calculateNewPrice_cases (some 25) (some 10)).2.2.2
      "bogus" (by decide) (by decide) (by decide)
    simpa [parseFloatOr0] using h

/-- Counterexample to claim C2 as stated: with priceType apply-price and the
(parsable, negative) amount string "-5", the calculator returns −5 < 0, so
the result is not clamped to ≥ 0 for every input. -/
theorem C2_counterexample :
    calculateNewPrice (some 10) "apply-price" (some (-5)) = -5 ∧
    calculateNewPrice (some 10) "apply-price" (some (-5)) < 0 := by
  constructor
  · rfl
  · norm_num [calculateNewPrice, parseFloatOr0]

/-- Claim C2 (amended): the result is ≥ 0 unconditionally for decrease-fixed
and decrease-percentage (the Math.max clamp); for apply-price it is ≥ 0 iff
the parsed amount is, and for any priceType the result is ≥ 0 whenever both
parsed inputs are ≥ 0. -/
theorem C2_nonneg_amended (o a : Option ℚ) :
    0 ≤ calculateNewPrice o "decrease-fixed" a ∧
    0 ≤ calculateNewPrice o "decrease-percentage" a ∧
    (0 ≤ parseFloatOr0 a → 0 ≤ calculateNewPrice o "apply-price" a) ∧
    (∀ t : String, 0 ≤ parseFloatOr0 o → 0 ≤ parseFloatOr0 a →
      0 ≤ calculateNewPrice o t a) := by
  refine ⟨le_max_left _ _, le_max_left _ _, fun h => h, ?_⟩
  intro t ho ha
  by_cases h1 : t = "apply-price"
  · simpa [calculateNewPrice, h1] using ha
  by_cases h2 : t = "decrease-fixed"
  · simp [calculateNewPrice, h1, h2]
  by_cases h3 : t = "decrease-percentage"
  · simp [calculateNewPrice, h1, h2, h3]
  · simpa [calculateNewPrice, h1, h2, h3] using ho

/-- Witness for C2 (amended) at concrete inputs. -/
theorem C2_witness :
    (0 : ℚ) ≤ parseFloatOr0 (some 10) ∧
    0 ≤ calculateNewPrice (some 25) "apply-price" (some 10) := by
  refine ⟨by norm_num [parseFloatOr0], ?_⟩
  exact (C2_nonneg_amended (some 25) (some 10)).2.2.1 (by norm_num [parseFloatOr0])

/-! ## Rule Evaluator (priced report)

`prepareTableData` from `src/app/components/ProductPricingDetails.tsx`
(lines 144-209; `src/unnamed/part_001` lines 146-219 builds the same rows).
A product row source has an optional `variants` array; a product whose
`variants` is missing or empty gets a fallback row with the mock price 100:

```
products.forEach((product) => {
  if (product.variants && product.variants.length > 0) {
    product.variants.forEach((variant) => { ... allTableRows.push([...]); });
  } else {
    const originalPrice = 100; // Mock price for demo
    ... allTableRows.push([...]);
  }
});
```
-/

/-- A product variant as received from the resolve-and-price endpoint
(`price` is a decimal string, modelled by its parse result). -/
structure ProductVariant where
  id : String
  title : String
  price : Option ℚ
  compareAtPrice : Option ℚ
  sku : Option String
deriving DecidableEq, Repr

/-- A product as received by the pricing-details component; `variants` is an
optional array. -/
structure UIProduct where
  id : String
  title : String
  handle : String
  variants : Option (List ProductVariant)
deriving DecidableEq, Repr

/-- One row of the priced report.  The currency/percent formatting of the
source is display-only and abstracted to the numbers being formatted;
`shown` records the `Math.abs(difference) > 0.01` test that decides between
a signed difference display and the bare dash. -/
structure TableRow where
  productTitle : String
  variantTitle : String
  originalPrice : ℚ
  newPrice : ℚ
  difference : ℚ
  differencePercent : ℚ
  shown : Bool
deriving DecidableEq, Repr

/-- The row pushed for one variant of a product. -/
def variantRow (productTitle : String) (priceType : String) (amount : Option ℚ)
    (v : ProductVariant) : TableRow :=
  let originalPrice := parseFloatOr0 v.price
  let newPrice := calculateNewPrice v.price priceType amount
  let difference := newPrice - originalPrice
  { productTitle := productTitle
    variantTitle := if v.title = "" then "Default Title" else v.title
    originalPrice := originalPrice
    newPrice := newPrice
    difference := difference
    differencePercent := if 0 < originalPrice then difference / originalPrice * 100 else 0
    shown := decide (1/100 < |difference|) }

/-- The fallback row pushed for a product without variants (mock price 100). -/
def fallbackRow (productTitle : String) (priceType : String) (amount : Option ℚ) :
    TableRow :=
  let originalPrice : ℚ := 100
  let newPrice := calculateNewPrice (some 100) priceType amount
  let difference := newPrice - originalPrice
  { productTitle := productTitle
    variantTitle := "Default Title"
    originalPrice := originalPrice
    newPrice := newPrice
    difference := difference
    differencePercent := if 0 < originalPrice then difference / originalPrice * 100 else 0
    shown := decide (1/100 < |difference|) }

/-- All rows of the priced report (the `allTableRows` array of
`prepareTableData`), in product order then variant order. -/
def allTableRows (products : List UIProduct) (priceType : String)
    (amount : Option ℚ) : List TableRow :=
  products.flatMap fun p =>
    match p.variants with
    | some vs =>
        if vs.isEmpty then [fallbackRow p.title priceType amount]
        else vs.map (variantRow p.title priceType amount)
    | none => [fallbackRow p.title priceType amount]

/-- Result record of `prepareTableData` (pagination over the rows,
`PAGE_SIZE = 10`). -/
structure TableData where
  tableRows : List TableRow
  totalPages : Nat
  startIndex : Nat
  endIndex : Nat
  totalVariants : Nat
deriving DecidableEq, Repr

/-- `prepareTableData` of `src/app/components/ProductPricingDetails.tsx`:
builds all rows, then slices the page `[startIndex, endIndex)`. -/
def prepareTableData (products : List UIProduct) (priceType : String)
    (amount : Option ℚ) (currentPage : Nat) : TableData :=
  let allRows := allTableRows products priceType amount
  let totalVariants := allRows.length
  let startIndex := (currentPage - 1) * 10
  let endIndex := startIndex + 10
  { tableRows := (allRows.drop startIndex).take 10
    totalPages := (totalVariants + 10 - 1) / 10
    startIndex := startIndex
    endIndex := endIndex
    totalVariants := totalVariants }

/-- A concrete product without variants, used to settle C3. -/
def exProdNoVariants : UIProduct :=
  { id := "p1", title := "Shirt", handle := "shirt", variants := none }

/-- A concrete product with two variants, used to settle C3. -/
def exProdTwoVariants : UIProduct :=
  { id := "p2", title := "Mug", handle := "mug",
    variants := some [
      { id := "v1", title := "Small", price := some 20, compareAtPrice := none,
        sku := none },
      { id := "v2", title := "Large", price := some 30, compareAtPrice := none,
        sku := none }] }

/-- Counterexample to claim C3 as stated: a product whose variants list is
missing contributes a row (the mock-price fallback row) to the priced
report, it is not skipped. -/
theorem C3_counterexample :
    allTableRows [exProdNoVariants] "decrease-fixed" (some 10)
      = [fallbackRow "Shirt" "decrease-fixed" (some 10)] ∧
    (allTableRows [exProdNoVariants] "decrease-fixed" (some 10)).length ≠ 0 := by
  constructor
  · rfl
  · decide

/-- Claim C3 (amended): the evaluation never crashes on a variant-less
product, but such a product contributes exactly one fallback row with mock
price 100 (not zero rows); every product with a non-empty variants list
contributes exactly one row per variant.  The total row count is the sum of
these contributions. -/
theorem C3_rows_amended (products : List UIProduct) (priceType : String)
    (amount : Option ℚ) :
    (allTableRows products priceType amount).length
      = (products.map fun p =>
          match p.variants with
          | some vs => if vs.isEmpty then 1 else vs.length
          | none => 1).sum ∧
    (∀ p : UIProduct, (p.variants = none ∨ p.variants = some []) →
      allTableRows [p] priceType amount = [fallbackRow p.title priceType amount]) ∧
    (∀ p : UIProduct, ∀ vs : List ProductVariant, p.variants = some vs → vs ≠ [] →
      allTableRows [p] priceType amount
        = vs.map (variantRow p.title priceType amount)) := by
  refine ⟨?_, ?_, ?_⟩
  · induction products with
    | nil => simp [allTableRows]
    | cons p ps ih =>
        simp only [allTableRows, List.flatMap_cons, List.map_cons, List.sum_cons,
          List.length_append] at *
        rw [ih]
        congr 1
        match h : p.variants with
        | none => simp
        | some vs =>
            by_cases hvs : vs.isEmpty
            · simp [hvs]
            · simp [hvs]
  · intro p hp
    rcases hp with h | h <;> simp [allTableRows, h]
  · intro p vs hp hvs
    simp [allTableRows, hp, List.isEmpty_iff, hvs]

/-- Witness for C3 (amended) at a concrete product list: one variant-less
product and one two-variant product produce three rows. -/
theorem C3_witness :
    (exProdNoVariants.variants = none ∨ exProdNoVariants.variants = some []) ∧
    allTableRows [exProdNoVariants] "apply-price" (some 5)
      = [fallbackRow exProdNoVariants.title "apply-price" (some 5)] ∧
    (allTableRows [exProdNoVariants, exProdTwoVariants] "apply-price" (some 5)).length
      = 3 := by
  refine ⟨Or.inl rfl, ?_, ?_⟩
  · exact (C3_rows_amended [exProdNoVariants] "apply-price" (some 5)).2.1
      exProdNoVariants (Or.inl rfl)
  · have h := (C3_rows_amended [exProdNoVariants, exProdTwoVariants]
      "apply-price" (some 5)).1
    rw [h]
    decide

/-! ## Rule Store create / update action

The `action` of `src/app/routes/app.pricing_rule.$id.tsx` (lines 97-293):
field extraction from form data, server-side validation (lines 133-173),
JSON parsing of the selector payloads with swallowed parse failures
(lines 176-211), then update (lines 213-260) or create (lines 262-280).

Numeric fields carry their `parseInt` / `parseFloat` result; a selector
form field carries its raw string (`none` = `formData.get` returned null)
together with its `JSON.parse` result (`none` = the parse throws).  The
`getD` defaults in the record builders are never reached on the paths the
theorems speak about, since validation guarantees the fields are present.
-/

/-- A selector form field: the raw string and its JSON.parse outcome. -/
structure JsonField where
  raw : Option String
  parsed : Option (List String)
deriving DecidableEq, Repr

/-- Lines 181-211: `let parsedX = null; if (x && x !== "[]") try { parsedX =
JSON.parse(x) } catch { ... }` — the parse result, `none` when the field is
absent, empty, literally "[]", or unparseable. -/
def parseField (f : JsonField) : Option (List String) :=
  match f.raw with
  | none => none
  | some s => if s = "" ∨ s = "[]" then none else f.parsed

/-- JavaScript `parsedX || currentRule.x`: `null` falls back, any array
(even empty) is truthy and wins. -/
def jsOrSelector (a b : Option (List String)) : Option (List String) :=
  match a with
  | none => b
  | some v => some v

/-- The submitted form, each field as extracted on lines 122-131. -/
structure RuleForm where
  name : Option String
  status : Option String
  priority : Option Int
  applyTo : Option String
  productIds : JsonField
  variantIds : JsonField
  collectionIds : JsonField
  tagIds : JsonField
  priceType : Option String
  amount : Option ℚ
deriving DecidableEq, Repr

/-- A persisted PricingRule row. -/
structure StoredRule where
  id : String
  name : String
  priority : Int
  status : String
  applyTo : String
  productIds : Option (List String)
  variantIds : Option (List String)
  collectionIds : Option (List String)
  tagIds : Option (List String)
  priceType : String
  amount : ℚ
deriving DecidableEq, Repr

/-- Line 135: `!name || name.trim().length < 2`. -/
def nameInvalid (x : Option String) : Bool :=
  match x with
  | none => true
  | some n => n = "" || decide ((jsTrim n).length < 2)

/-- Lines 139/147/151: `!value` on a string field. -/
def requiredMissing (x : Option String) : Bool :=
  match x with
  | none => true
  | some v => v = ""

/-- Line 143: `!priority || isNaN(priority) || priority < 1`
(`!priority` is also true for the number 0). -/
def priorityInvalid (x : Option Int) : Bool :=
  match x with
  | none => true
  | some p => p == 0 || decide (p < 1)

/-- Line 155: `isNaN(amount) || amount < 0`. -/
def amountInvalid (x : Option ℚ) : Bool :=
  match x with
  | none => true
  | some a => decide (a < 0)

/-- Lines 159-169: `(!x || x === "[]")` on a selector field's raw string. -/
def selectorMissing (f : JsonField) : Bool :=
  match f.raw with
  | none => true
  | some s => s = "" || s = "[]"

/-- The server-side validation of lines 133-169, producing the field-level
error map in insertion order. -/
def serverValidate (form : RuleForm) : List (String × String) :=
  (if nameInvalid form.name then [("name", "Name must be at least 2 characters")]
    else []) ++
  (if requiredMissing form.status then [("status", "Status is required")] else []) ++
  (if priorityInvalid form.priority then
    [("priority", "Priority must be at least 1")] else []) ++
  (if requiredMissing form.applyTo then
    [("applyTo", "Apply to selection is required")] else []) ++
  (if requiredMissing form.priceType then
    [("priceType", "Price type is required")] else []) ++
  (if amountInvalid form.amount then
    [("amount", "Amount must be a valid positive number")] else []) ++
  (if form.applyTo = some "specific-products" ∧ selectorMissing form.productIds
      ∧ selectorMissing form.variantIds then
    [("products", "Please select at least one product or variant")] else []) ++
  (if form.applyTo = some "product-collections" ∧ selectorMissing form.collectionIds then
    [("collections", "Please select at least one collection")] else []) ++
  (if form.applyTo = some "product-tags" ∧ selectorMissing form.tagIds then
    [("tags", "Please select at least one tag")] else [])

/-- The `updateData` record of lines 225-255: common fields from the form,
selector fields per `applyTo` with the keep-existing-if-parse-null fallback,
all other selector fields nulled. -/
def applyUpdate (form : RuleForm) (cur : StoredRule) : StoredRule :=
  let applyTo := form.applyTo.getD ""
  let base : StoredRule :=
    { id := cur.id
      name := jsTrim (form.name.getD "")
      priority := form.priority.getD 0
      status := form.status.getD ""
      applyTo := applyTo
      productIds := none
      variantIds := none
      collectionIds := none
      tagIds := none
      priceType := form.priceType.getD ""
      amount := form.amount.getD 0 }
  if applyTo = "specific-products" then
    { base with
        productIds := jsOrSelector (parseField form.productIds) cur.productIds
        variantIds := jsOrSelector (parseField form.variantIds) cur.variantIds }
  else if applyTo = "product-collections" then
    { base with
        collectionIds := jsOrSelector (parseField form.collectionIds) cur.collectionIds }
  else if applyTo = "product-tags" then
    { base with tagIds := jsOrSelector (parseField form.tagIds) cur.tagIds }
  else base

/-- The created record of lines 263-279: fresh id, parsed selectors stored
as-is (null when the parse failed or the field was empty). -/
def buildCreate (form : RuleForm) (freshId : String) : StoredRule :=
  { id := freshId
    name := jsTrim (form.name.getD "")
    priority := form.priority.getD 0
    status := form.status.getD ""
    applyTo := form.applyTo.getD ""
    productIds := parseField form.productIds
    variantIds := parseField form.variantIds
    collectionIds := parseField form.collectionIds
    tagIds := parseField form.tagIds
    priceType := form.priceType.getD ""
    amount := form.amount.getD 0 }

/-- Outcome of the route action. -/
inductive RuleActionResult where
  | validationErrors (errors : List (String × String))
  | notFoundError
  | updated (rule : StoredRule)
  | created (rule : StoredRule)
deriving DecidableEq, Repr

/-- The action of `app.pricing_rule.$id.tsx`: validate, then update the
existing rule (404 when the id does not resolve) or create a new one. -/
def pricingRuleFormAction (form : RuleForm) (isEdit : Bool)
    (current : Option StoredRule) (freshId : String) : RuleActionResult :=
  let errors := serverValidate form
  if ¬ errors.isEmpty then .validationErrors errors
  else if isEdit then
    match current with
    | none => .notFoundError
    | some cur => .updated (applyUpdate form cur)
  else .created (buildCreate form freshId)

/-- An error chunk of `serverValidate` is empty exactly when its condition
fails. -/
theorem errChunk_eq_nil {c : Prop} [Decidable c] (x : String × String) :
    ((if c then [x] else []) = []) ↔ ¬ c := by
  by_cases h : c <;> simp [h]

/-- Validation success splits into the nine individual checks. -/
theorem serverValidate_eq_nil (form : RuleForm) :
    serverValidate form = [] ↔
      nameInvalid form.name = false ∧
      requiredMissing form.status = false ∧
      priorityInvalid form.priority = false ∧
      requiredMissing form.applyTo = false ∧
      requiredMissing form.priceType = false ∧
      amountInvalid form.amount = false ∧
      ¬ (form.applyTo = some "specific-products" ∧ selectorMissing form.productIds
          ∧ selectorMissing form.variantIds) ∧
      ¬ (form.applyTo = some "product-collections"
          ∧ selectorMissing form.collectionIds) ∧
      ¬ (form.applyTo = some "product-tags" ∧ selectorMissing form.tagIds) := by
  unfold serverValidate
  simp only [List.append_eq_nil, errChunk_eq_nil, Bool.not_eq_true, and_assoc]

/-- A successful (non-error) outcome forces the validation map to be empty. -/
theorem action_success_validate (form : RuleForm) (isEdit : Bool)
    (current : Option StoredRule) (freshId : String) (r : StoredRule)
    (h : pricingRuleFormAction form isEdit current freshId = .updated r ∨
         pricingRuleFormAction form isEdit current freshId = .created r) :
    serverValidate form = [] := by
  unfold pricingRuleFormAction at h
  by_cases he : (serverValidate form).isEmpty
  · exact List.isEmpty_iff.mp he
  · rcases h with h | h <;> simp [he] at h

/-- A successful update outcome is exactly `applyUpdate` on the current rule. -/
theorem action_updated_eq (form : RuleForm) (cur : StoredRule) (freshId : String)
    (r : StoredRule)
    (h : pricingRuleFormAction form true (some cur) freshId = .updated r) :
    r = applyUpdate form cur := by
  unfold pricingRuleFormAction at h
  by_cases he : (serverValidate form).isEmpty <;> simp [he] at h
  exact h.symm

/-- The current collections rule used to settle C4. -/
def exCur4 : StoredRule :=
  { id := "pr_1", name := "Summer sale", priority := 5, status := "active"
    applyTo := "product-collections"
    productIds := none, variantIds := none
    collectionIds := some ["gid-c1"], tagIds := none
    priceType := "decrease-fixed", amount := 10 }

/-- An update submission changing only priceType/amount, with the empty
selector JSON "[]" for every selector field (what the claim C4 scenario
describes). -/
def exEmptySelForm4 : RuleForm :=
  { name := some "Summer sale", status := some "active", priority := some 5
    applyTo := some "product-collections"
    productIds := { raw := some "[]", parsed := some [] }
    variantIds := { raw := some "[]", parsed := some [] }
    collectionIds := { raw := some "[]", parsed := some [] }
    tagIds := { raw := some "[]", parsed := some [] }
    priceType := some "apply-price", amount := some 99 }

/-- Counterexample to claim C4 as stated: an update of an existing rule that
submits the empty selector JSON "[]" for its own applyTo is rejected by the
selector-non-empty validation with a field error — no update happens at all,
so the scenario "empty selector submitted, rule updated with selector
preserved" does not occur. -/
theorem C4_counterexample :
    pricingRuleFormAction exEmptySelForm4 true (some exCur4) "pr_x"
      = RuleActionResult.validationErrors
          [("collections", "Please select at least one collection")] := by
  decide

/-- Claim C4 (amended): on every update that actually succeeds, the selector
fields not matching the submitted applyTo are set to null; the selector
field matching the applyTo keeps the previously stored value exactly when
the incoming payload parses to null (absent, empty, "[]", or unparseable
JSON — reachable past validation e.g. for unparseable JSON, or for
specific-products with an empty productIds but non-empty variantIds).  A
submission with the empty selector JSON for the active applyTo is instead
rejected by validation and writes nothing. -/
theorem C4_update_frame_amended (form : RuleForm) (cur : StoredRule)
    (freshId : String) (r : StoredRule)
    (h : pricingRuleFormAction form true (some cur) freshId = .updated r) :
    (form.applyTo = some "specific-products" →
      r.productIds = jsOrSelector (parseField form.productIds) cur.productIds ∧
      r.variantIds = jsOrSelector (parseField form.variantIds) cur.variantIds ∧
      r.collectionIds = none ∧ r.tagIds = none) ∧
    (form.applyTo = some "product-collections" →
      r.collectionIds = jsOrSelector (parseField form.collectionIds) cur.collectionIds ∧
      r.productIds = none ∧ r.variantIds = none ∧ r.tagIds = none) ∧
    (form.applyTo = some "product-tags" →
      r.tagIds = jsOrSelector (parseField form.tagIds) cur.tagIds ∧
      r.productIds = none ∧ r.variantIds = none ∧ r.collectionIds = none) ∧
    (∀ s : String, form.applyTo = some s → s ≠ "specific-products" →
      s ≠ "product-collections" → s ≠ "product-tags" →
      r.productIds = none ∧ r.variantIds = none ∧ r.collectionIds = none ∧
      r.tagIds = none) ∧
    (form.applyTo = some "product-collections" →
      parseField form.collectionIds = none → r.collectionIds = cur.collectionIds) := by
  have hr : r = applyUpdate form cur := action_updated_eq form cur freshId r h
  subst hr
  refine ⟨?_, ?_, ?_, ?_, ?_⟩
  · intro ha
    simp [applyUpdate, ha]
  · intro ha
    simp [applyUpdate, ha]
  · intro ha
    simp [applyUpdate, ha]
  · intro s ha h1 h2 h3
    simp [applyUpdate, ha, h1, h2, h3]
  · intro ha hp
    simp [applyUpdate, ha, hp, jsOrSelector]

/-- The current specific-products rule used for the C4 witness. -/
def exCur4b : StoredRule :=
  { id := "pr_2", name := "VIP", priority := 3, status := "active"
    applyTo := "specific-products"
    productIds := some ["gid-p1"], variantIds := none
    collectionIds := none, tagIds := none
    priceType := "decrease-fixed", amount := 5 }

/-- An update whose productIds payload is unparseable JSON (so its parse
result is null) while variantIds is non-empty, passing validation. -/
def exForm4b : RuleForm :=
  { name := some "VIP", status := some "active", priority := some 3
    applyTo := some "specific-products"
    productIds := { raw := some "oops", parsed := none }
    variantIds := { raw := some "[\"gid-v1\"]", parsed := some ["gid-v1"] }
    collectionIds := { raw := some "[]", parsed := some [] }
    tagIds := { raw := some "[]", parsed := some [] }
    priceType := some "decrease-fixed", amount := some 7 }

/-- Witness for C4 (amended): the concrete update succeeds and preserves the
stored productIds (its incoming payload parsed to null), while nulling the
non-matching selector fields. -/
theorem C4_witness :
    pricingRuleFormAction exForm4b true (some exCur4b) "pr_x"
      = RuleActionResult.updated (applyUpdate exForm4b exCur4b) ∧
    (applyUpdate exForm4b exCur4b).productIds = exCur4b.productIds ∧
    (applyUpdate exForm4b exCur4b).collectionIds = none ∧
    (applyUpdate exForm4b exCur4b).tagIds = none := by
  have h : pricingRuleFormAction exForm4b true (some exCur4b) "pr_x"
      = RuleActionResult.updated (applyUpdate exForm4b exCur4b) := by decide
  have hc := C4_update_frame_amended exForm4b exCur4b "pr_x"
    (applyUpdate exForm4b exCur4b) h
  refine ⟨h, ?_, (hc.1 rfl).2.2.1, (hc.1 rfl).2.2.2⟩
  have hp := (hc.1 rfl).1
  simpa [exForm4b, parseField, jsOrSelector] using hp

/-- A create submission violating every client-side-only bound: name longer
than 50 characters with non-alphanumeric characters, priority 500,
percentage amount 250. -/
def exForm5 : RuleForm :=
  { name := some "Bad@Name! Bad@Name! Bad@Name! Bad@Name! Bad@Name! Bad@Name!"
    status := some "active", priority := some 500
    applyTo := some "all-products"
    productIds := { raw := some "[]", parsed := some [] }
    variantIds := { raw := some "[]", parsed := some [] }
    collectionIds := { raw := some "[]", parsed := some [] }
    tagIds := { raw := some "[]", parsed := some [] }
    priceType := some "decrease-percentage", amount := some 250 }

/-- Counterexample to claim C5 as stated: the server-side action accepts and
creates a rule whose name is 59 characters with forbidden characters, whose
priority is 500 (outside 1-99) and whose decrease-percentage amount is 250
(outside [0,100]) — those bounds are only checked client-side. -/
theorem C5_counterexample :
    pricingRuleFormAction exForm5 false none "pr_new"
      = RuleActionResult.created (buildCreate exForm5 "pr_new") ∧
    50 < (exForm5.name.getD "").length ∧
    ((exForm5.name.getD "").data.any fun c => !(c.isAlphanum || c = ' ')) = true ∧
    exForm5.priority = some 500 ∧ (99 : Int) < 500 ∧
    exForm5.priceType = some "decrease-percentage" ∧
    exForm5.amount = some 250 ∧ (100 : ℚ) < 250 := by
  refine ⟨by decide, by decide, by decide, rfl, by decide, rfl, rfl, by norm_num⟩

/-- Claim C5 (amended): the server-side action re-validates only: name
present with trimmed length at least 2, status/applyTo/priceType present and
non-empty, priority a number at least 1, amount a number at least 0, and
selector non-empty (raw string neither missing, empty nor "[]") for the
chosen applyTo; on any violation of these it rejects with a field-level
error map and writes no record.  The 50-character/charset cap, the upper
priority bound 99 and the percentage/fixed amount bounds are client-side
only (see the counterexample). -/
theorem C5_server_checks_amended (form : RuleForm) (isEdit : Bool)
    (current : Option StoredRule) (freshId : String) (r : StoredRule)
    (h : pricingRuleFormAction form isEdit current freshId = .updated r ∨
         pricingRuleFormAction form isEdit current freshId = .created r) :
    (∃ n, form.name = some n ∧ n ≠ "" ∧ 2 ≤ (jsTrim n).length) ∧
    (∃ st, form.status = some st ∧ st ≠ "") ∧
    (∃ p, form.priority = some p ∧ 1 ≤ p) ∧
    (∃ ap, form.applyTo = some ap ∧ ap ≠ "") ∧
    (∃ pt, form.priceType = some pt ∧ pt ≠ "") ∧
    (∃ a, form.amount = some a ∧ 0 ≤ a) ∧
    (form.applyTo = some "specific-products" →
      selectorMissing form.productIds = false ∨
      selectorMissing form.variantIds = false) ∧
    (form.applyTo = some "product-collections" →
      selectorMissing form.collectionIds = false) ∧
    (form.applyTo = some "product-tags" → selectorMissing form.tagIds = false) := by
  have hv := (serverValidate_eq_nil form).mp
    (action_success_validate form isEdit current freshId r h)
  obtain ⟨h1, h2, h3, h4, h5, h6, h7, h8, h9⟩ := hv
  refine ⟨?_, ?_, ?_, ?_, ?_, ?_, ?_, ?_, ?_⟩
  · cases hn : form.name with
    | none => simp [nameInvalid, hn] at h1
    | some n =>
        rw [hn] at h1
        simp only [nameInvalid, Bool.or_eq_false_iff, decide_eq_false_iff_not,
          Nat.not_lt] at h1
        exact ⟨n, rfl, by simpa using h1.1, h1.2⟩
  · cases hs : form.status with
    | none => simp [requiredMissing, hs] at h2
    | some st =>
        rw [hs] at h2
        simp only [requiredMissing, decide_eq_false_iff_not] at h2
        exact ⟨st, rfl, h2⟩
  · cases hp : form.priority with
    | none => simp [priorityInvalid, hp] at h3
    | some p =>
        rw [hp] at h3
        simp only [priorityInvalid, Bool.or_eq_false_iff, beq_eq_false_iff_ne,
          decide_eq_false_iff_not, Int.not_lt] at h3
        exact ⟨p, rfl, h3.2⟩
  · cases ha : form.applyTo with
    | none => simp [requiredMissing, ha] at h4
    | some ap =>
        rw [ha] at h4
        simp only [requiredMissing, decide_eq_false_iff_not] at h4
        exact ⟨ap, rfl, h4⟩
  · cases hp : form.priceType with
    | none => simp [requiredMissing, hp] at h5
    | some pt =>
        rw [hp] at h5
        simp only [requiredMissing, decide_eq_false_iff_not] at h5
        exact ⟨pt, rfl, h5⟩
  · cases ham : form.amount with
    | none => simp [amountInvalid, ham] at h6
    | some a =>
        rw [ham] at h6
        simp only [amountInvalid, decide_eq_false_iff_not, not_lt] at h6
        exact ⟨a, rfl, h6⟩
  · intro ha
    by_cases hp : selectorMissing form.productIds
    · by_cases hvv : selectorMissing form.variantIds
      · exact absurd ⟨ha, hp, hvv⟩ h7
      · exact Or.inr (by simpa using hvv)
    · exact Or.inl (by simpa using hp)
  · intro ha
    by_cases hc : selectorMissing form.collectionIds
    · exact absurd ⟨ha, hc⟩ h8
    · simpa using hc
  · intro ha
    by_cases ht : selectorMissing form.tagIds
    · exact absurd ⟨ha, ht⟩ h9
    · simpa using ht

/-- A fully valid create submission used as the C5 witness. -/
def exForm5b : RuleForm :=
  { name := some "Holiday promo", status := some "active", priority := some 10
    applyTo := some "product-tags"
    productIds := { raw := some "[]", parsed := some [] }
    variantIds := { raw := some "[]", parsed := some [] }
    collectionIds := { raw := some "[]", parsed := some [] }
    tagIds := { raw := some "[\"sale\"]", parsed := some ["sale"] }
    priceType := some "decrease-percentage", amount := some 20 }

/-- Witness for C5 (amended) at a concrete accepted create request. -/
theorem C5_witness :
    pricingRuleFormAction exForm5b false none "pr_new"
      = RuleActionResult.created (buildCreate exForm5b "pr_new") ∧
    selectorMissing exForm5b.tagIds = false := by
  have h : pricingRuleFormAction exForm5b false none "pr_new"
      = RuleActionResult.created (buildCreate exForm5b "pr_new") := by decide
  have hc := C5_server_checks_amended exForm5b false none "pr_new"
    (buildCreate exForm5b "pr_new") (Or.inr h)
  exact ⟨h, hc.2.2.2.2.2.2.2.2 rfl⟩

/-- Claim C10: for every create request whose selector string for the
active applyTo — productIds for specific-products, collectionIds for
product-collections, tagIds for product-tags — is non-empty and not "[]"
but unparseable, server-side validation passes (it only inspects the raw
string), the parse failure is swallowed, and the rule is persisted with
that selector stored as null. -/
theorem C10_unparseable_selector_stored_null (form : RuleForm) (freshId : String)
    (s : String)
    (hname : nameInvalid form.name = false)
    (hstatus : requiredMissing form.status = false)
    (hpriority : priorityInvalid form.priority = false)
    (hpricetype : requiredMissing form.priceType = false)
    (hamount : amountInvalid form.amount = false)
    (hne : s ≠ "" ∧ s ≠ "[]")
    (hcase :
      (form.applyTo = some "specific-products" ∧ form.productIds.raw = some s
        ∧ form.productIds.parsed = none) ∨
      (form.applyTo = some "product-collections" ∧ form.collectionIds.raw = some s
        ∧ form.collectionIds.parsed = none) ∨
      (form.applyTo = some "product-tags" ∧ form.tagIds.raw = some s
        ∧ form.tagIds.parsed = none)) :
    serverValidate form = [] ∧
    pricingRuleFormAction form false none freshId
      = RuleActionResult.created (buildCreate form freshId) ∧
    (form.applyTo = some "specific-products" →
      (buildCreate form freshId).productIds = none ∧
      (buildCreate form freshId).applyTo = "specific-products") ∧
    (form.applyTo = some "product-collections" →
      (buildCreate form freshId).collectionIds = none ∧
      (buildCreate form freshId).applyTo = "product-collections") ∧
    (form.applyTo = some "product-tags" →
      (buildCreate form freshId).tagIds = none ∧
      (buildCreate form freshId).applyTo = "product-tags") := by
  have hv : serverValidate form = [] := by
    rw [serverValidate_eq_nil]
    rcases hcase with ⟨ha, hraw, -⟩ | ⟨ha, hraw, -⟩ | ⟨ha, hraw, -⟩
    · have hsel : selectorMissing form.productIds = false := by
        simp [selectorMissing, hraw, hne.1, hne.2]
      refine ⟨hname, hstatus, hpriority, by simp [requiredMissing, ha],
        hpricetype, hamount, ?_, ?_, ?_⟩
      · rintro ⟨-, hx, -⟩
        rw [hsel] at hx
        exact absurd hx (by simp)
      · rintro ⟨hx, -⟩
        rw [ha] at hx
        simp at hx
      · rintro ⟨hx, -⟩
        rw [ha] at hx
        simp at hx
    · have hsel : selectorMissing form.collectionIds = false := by
        simp [selectorMissing, hraw, hne.1, hne.2]
      refine ⟨hname, hstatus, hpriority, by simp [requiredMissing, ha],
        hpricetype, hamount, ?_, ?_, ?_⟩
      · rintro ⟨hx, -⟩
        rw [ha] at hx
        simp at hx
      · rintro ⟨-, hx⟩
        rw [hsel] at hx
        exact absurd hx (by simp)
      · rintro ⟨hx, -⟩
        rw [ha] at hx
        simp at hx
    · have hsel : selectorMissing form.tagIds = false := by
        simp [selectorMissing, hraw, hne.1, hne.2]
      refine ⟨hname, hstatus, hpriority, by simp [requiredMissing, ha],
        hpricetype, hamount, ?_, ?_, ?_⟩
      · rintro ⟨hx, -⟩
        rw [ha] at hx
        simp at hx
      · rintro ⟨hx, -⟩
        rw [ha] at hx
        simp at hx
      · rintro ⟨-, hx⟩
        rw [hsel] at hx
        exact absurd hx (by simp)
  refine ⟨hv, ?_, ?_, ?_, ?_⟩
  · unfold pricingRuleFormAction
    simp [hv]
  · intro ha
    rcases hcase with ⟨-, hraw, hparse⟩ | ⟨ha2, -, -⟩ | ⟨ha2, -, -⟩
    · exact ⟨by simp [buildCreate, parseField, hraw, hne.1, hne.2, hparse],
        by simp [buildCreate, ha]⟩
    · rw [ha] at ha2
      simp at ha2
    · rw [ha] at ha2
      simp at ha2
  · intro ha
    rcases hcase with ⟨ha2, -, -⟩ | ⟨-, hraw, hparse⟩ | ⟨ha2, -, -⟩
    · rw [ha] at ha2
      simp at ha2
    · exact ⟨by simp [buildCreate, parseField, hraw, hne.1, hne.2, hparse],
        by simp [buildCreate, ha]⟩
    · rw [ha] at ha2
      simp at ha2
  · intro ha
    rcases hcase with ⟨ha2, -, -⟩ | ⟨ha2, -, -⟩ | ⟨-, hraw, hparse⟩
    · rw [ha] at ha2
      simp at ha2
    · rw [ha] at ha2
      simp at ha2
    · exact ⟨by simp [buildCreate, parseField, hraw, hne.1, hne.2, hparse],
        by simp [buildCreate, ha]⟩

/-- A create submission with an unparseable collections payload, used in the
C10 witness. -/
def exForm10 : RuleForm :=
  { name := some "Collection deal", status := some "active", priority := some 2
    applyTo := some "product-collections"
    productIds := { raw := some "[]", parsed := some [] }
    variantIds := { raw := some "[]", parsed := some [] }
    collectionIds := { raw := some "not json", parsed := none }
    tagIds := { raw := some "[]", parsed := some [] }
    priceType := some "decrease-fixed", amount := some 5 }

/-- A create submission with an unparseable productIds payload
(specific-products), used in the C10 witness. -/
def exForm10b : RuleForm :=
  { name := some "Product deal", status := some "active", priority := some 2
    applyTo := some "specific-products"
    productIds := { raw := some "not json", parsed := none }
    variantIds := { raw := some "[]", parsed := some [] }
    collectionIds := { raw := some "[]", parsed := some [] }
    tagIds := { raw := some "[]", parsed := some [] }
    priceType := some "decrease-fixed", amount := some 5 }

/-- A create submission with an unparseable tagIds payload (product-tags),
used in the C10 witness. -/
def exForm10c : RuleForm :=
  { name := some "Tag deal", status := some "active", priority := some 2
    applyTo := some "product-tags"
    productIds := { raw := some "[]", parsed := some [] }
    variantIds := { raw := some "[]", parsed := some [] }
    collectionIds := { raw := some "[]", parsed := some [] }
    tagIds := { raw := some "not json", parsed := none }
    priceType := some "decrease-fixed", amount := some 5 }

/-- Witness for C10 at the concrete unparseable payload "not json", once for
each of the three selector-bearing applyTo values. -/
theorem C10_witness :
    serverValidate exForm10 = [] ∧
    pricingRuleFormAction exForm10 false none "pr_new"
      = RuleActionResult.created (buildCreate exForm10 "pr_new") ∧
    (buildCreate exForm10 "pr_new").collectionIds = none ∧
    pricingRuleFormAction exForm10b false none "pr_new2"
      = RuleActionResult.created (buildCreate exForm10b "pr_new2") ∧
    (buildCreate exForm10b "pr_new2").productIds = none ∧
    pricingRuleFormAction exForm10c false none "pr_new3"
      = RuleActionResult.created (buildCreate exForm10c "pr_new3") ∧
    (buildCreate exForm10c "pr_new3").tagIds = none := by
  have h1 := C10_unparseable_selector_stored_null exForm10 "pr_new" "not json"
    (by decide) (by decide) (by decide) (by decide) (by decide)
    ⟨by decide, by decide⟩ (Or.inr (Or.inl ⟨rfl, rfl, rfl⟩))
  have h2 := C10_unparseable_selector_stored_null exForm10b "pr_new2" "not json"
    (by decide) (by decide) (by decide) (by decide) (by decide)
    ⟨by decide, by decide⟩ (Or.inl ⟨rfl, rfl, rfl⟩)
  have h3 := C10_unparseable_selector_stored_null exForm10c "pr_new3" "not json"
    (by decide) (by decide) (by decide) (by decide) (by decide)
    ⟨by decide, by decide⟩ (Or.inr (Or.inr ⟨rfl, rfl, rfl⟩))
  exact ⟨h1.1, h1.2.1, (h1.2.2.2.1 rfl).1, h2.2.1, (h2.2.2.1 rfl).1,
    h3.2.1, (h3.2.2.2.2 rfl).1⟩

/-! ## Rule list action: delete / bulkDelete / duplicate / bulkDuplicate

The `action` of `src/app/routes/app.pricing_rule.tsx` (lines 96-237).
`prisma.pricingRule.delete` throws when the id does not resolve (and when
`ruleId` is null); every throw is caught at lines 230-236 and turned into
the generic `Operation failed` response with HTTP status 500.
`prisma.pricingRule.deleteMany` with an `in` filter never throws and simply
skips missing ids.  `ruleIds` is a JSON string field; its `JSON.parse` is
modelled like the selector fields.
-/

/-- A `json({success, message}, {status})` response of the list action. -/
structure ActionResponse where
  success : Bool
  message : String
  status : Nat
deriving DecidableEq, Repr

/-- The catch-all response of lines 230-236. -/
def genericFailure : ActionResponse :=
  { success := false, message := "Operation failed. Please try again.", status := 500 }

/-- The list-route action: returns the HTTP response and the store after the
operation.  `freshIds` supplies the `pr_${Date.now()}_...` ids drawn for
duplicated rules. -/
def pricingRuleListAction (store : List StoredRule) (actionType : String)
    (ruleId : Option String) (ruleIds : JsonField) (freshIds : List String) :
    ActionResponse × List StoredRule :=
  if actionType = "bulkDelete" then
    match ruleIds.raw with
    | none => ({ success := false, message := "No rules selected", status := 400 }, store)
    | some s =>
        if s = "" then
          ({ success := false, message := "No rules selected", status := 400 }, store)
        else
          match ruleIds.parsed with
          | none => (genericFailure, store)
          | some ids =>
              ({ success := true
                 message := toString ids.length ++ " pricing rule(s) deleted successfully!"
                 status := 200 },
               store.filter (fun r => !(ids.contains r.id)))
  else if actionType = "bulkDuplicate" then
    match ruleIds.raw with
    | none => ({ success := false, message := "No rules selected", status := 400 }, store)
    | some s =>
        if s = "" then
          ({ success := false, message := "No rules selected", status := 400 }, store)
        else
          match ruleIds.parsed with
          | none => (genericFailure, store)
          | some ids =>
              let rulesToDuplicate := store.filter (fun r => ids.contains r.id)
              let duplicatedRules := (rulesToDuplicate.zip freshIds).map fun rn =>
                { rn.1 with
                  id := rn.2
                  name := rn.1.name ++ " (Copy)"
                  status := "inactive" }
              ({ success := true
                 message := toString ids.length
                   ++ " pricing rule(s) duplicated successfully!"
                 status := 200 },
               store ++ duplicatedRules)
  else if actionType = "delete" then
    match ruleId with
    | none => (genericFailure, store)
    | some rid =>
        if store.any (fun r => r.id == rid) then
          ({ success := true, message := "Pricing rule deleted successfully!"
             status := 200 },
           store.filter (fun r => r.id != rid))
        else (genericFailure, store)
  else if actionType = "duplicate" then
    match ruleId with
    | none => (genericFailure, store)
    | some rid =>
        match store.find? (fun r => r.id == rid) with
        | none => ({ success := false, message := "Original rule not found"
                     status := 404 }, store)
        | some originalRule =>
            ({ success := true, message := "Pricing rule duplicated successfully!"
               status := 200 },
             store ++ [{ originalRule with
                         id := freshIds.headD ""
                         name := originalRule.name ++ " (Copy)"
                         status := "inactive" }])
  else ({ success := false, message := "Invalid action type", status := 400 }, store)

/-- A stored rule used to settle C6. -/
def exRule6a : StoredRule :=
  { id := "pr_a", name := "Rule A", priority := 1, status := "active"
    applyTo := "all-products", productIds := none, variantIds := none
    collectionIds := none, tagIds := none, priceType := "apply-price", amount := 9 }

/-- A second stored rule used to settle C6. -/
def exRule6b : StoredRule :=
  { id := "pr_b", name := "Rule B", priority := 2, status := "draft"
    applyTo := "all-products", productIds := none, variantIds := none
    collectionIds := none, tagIds := none, priceType := "decrease-fixed", amount := 4 }

/-- Counterexample to claim C6 as stated: deleting the nonexistent id
"pr_zzz" does not produce a not-found error — the store-layer throw is
caught and surfaced as the generic 500 "Operation failed" response (the
repository's not-found responses carry status 404). -/
theorem C6_counterexample :
    pricingRuleListAction [exRule6a, exRule6b] "delete" (some "pr_zzz")
        { raw := none, parsed := none } []
      = (genericFailure, [exRule6a, exRule6b]) ∧
    genericFailure.status = 500 ∧ genericFailure.status ≠ 404 ∧
    genericFailure.message = "Operation failed. Please try again." := by
  refine ⟨by decide, rfl, by decide, rfl⟩

/-- Claim C6 (amended): deleting a single rule by a nonexistent id produces
an error response — but the generic 500 "Operation failed" one, not an
explicit not-found — and leaves the store unchanged, whereas bulkDelete
with a list containing missing ids succeeds, silently ignoring the missing
ids and removing exactly the ones that exist. -/
theorem C6_delete_paths_amended (store : List StoredRule) (rid : String)
    (s : String) (ids : List String) (jf : JsonField) (fresh : List String)
    (hmiss : ∀ r ∈ store, r.id ≠ rid) (hs : s ≠ "") :
    pricingRuleListAction store "delete" (some rid) jf fresh
      = (genericFailure, store) ∧
    pricingRuleListAction store "bulkDelete" none { raw := some s, parsed := some ids }
        fresh
      = ({ success := true
           message := toString ids.length ++ " pricing rule(s) deleted successfully!"
           status := 200 },
         store.filter (fun r => !(ids.contains r.id))) := by
  constructor
  · have hany : store.any (fun r => r.id == rid) = false := by
      rw [List.any_eq_false]
      intro r hr
      simpa using hmiss r hr
    simp [pricingRuleListAction, hany]
  · simp [pricingRuleListAction, hs]

/-- Witness for C6 (amended) at a concrete store: single delete of a missing
id fails generically; bulk delete of one existing and one missing id
succeeds and removes only the existing one. -/
theorem C6_witness :
    pricingRuleListAction [exRule6a, exRule6b] "delete" (some "pr_zzz")
        { raw := some "x", parsed := none } []
      = (genericFailure, [exRule6a, exRule6b]) ∧
    pricingRuleListAction [exRule6a, exRule6b] "bulkDelete" none
        { raw := some "[\"pr_a\",\"pr_zzz\"]", parsed := some ["pr_a", "pr_zzz"] } []
      = ({ success := true, message := "2 pricing rule(s) deleted successfully!"
           status := 200 }, [exRule6b]) := by
  have h := C6_delete_paths_amended [exRule6a, exRule6b] "pr_zzz"
    "[\"pr_a\",\"pr_zzz\"]" ["pr_a", "pr_zzz"] { raw := some "x", parsed := none } []
    (by decide) (by decide)
  refine ⟨h.1, ?_⟩
  rw [h.2]
  decide

/-! ## Resolve-and-price endpoint

The `action` of the product-pricing route (`src/unnamed/part_005`,
lines 12-94; the variant at `src/app/routes/api.product-pricing.tsx` has the
same shape but no 410 handling at all).  The four catalog-resolver calls are
external GraphQL fetches; their outcomes are passed in as `Except` values
(`error m` = the call threw an error whose `message` is `m`).  In the
specific-products and product-collections branches an error whose message
contains "410" is normalized to an empty product list; elsewhere every
error propagates to the outer catch and becomes the generic 500 response.
-/

/-- A resolved catalog product (the normalized shape produced by the
GraphQL helpers). -/
structure ResolvedProduct where
  id : String
  title : String
  handle : String
  tags : List String
  featuredImage : Option String
  variants : List ProductVariant
deriving DecidableEq, Repr

/-- The JSON response of the resolve-and-price action. -/
inductive PricingResponse where
  | ok (products : List ResolvedProduct) (count : Nat) (applyTo : String)
  | err (message : String) (status : Nat)
deriving DecidableEq, Repr

/-- `x && Array.isArray(x) && x.length > 0` on an optional id list. -/
def listTruthy (x : Option (List String)) : Bool :=
  match x with
  | some (_ :: _) => true
  | _ => false

/-- The resolve-and-price action.  `byVariants`, `byIds`, `byCollections`,
`byTags`, `allProducts` are the outcomes of the corresponding resolver
calls, consulted only in the branch that performs that call. -/
def productPricingAction (applyTo : String)
    (productIds variantIds collectionIds tags : Option (List String))
    (byVariants byIds byCollections byTags allProducts :
      Except String (List ResolvedProduct)) : PricingResponse :=
  if applyTo = "all-products" then
    match allProducts with
    | .ok ps => .ok ps ps.length applyTo
    | .error _ => .err "Failed to fetch products with pricing" 500
  else if applyTo = "specific-products" then
    if listTruthy variantIds then
      match byVariants with
      | .ok ps => .ok ps ps.length applyTo
      | .error m =>
          if jsIncludes m "410" then .ok [] 0 applyTo
          else .err "Failed to fetch products with pricing" 500
    else if listTruthy productIds then
      match byIds with
      | .ok ps => .ok ps ps.length applyTo
      | .error m =>
          if jsIncludes m "410" then .ok [] 0 applyTo
          else .err "Failed to fetch products with pricing" 500
    else .ok [] 0 applyTo
  else if applyTo = "product-collections" then
    if listTruthy collectionIds then
      match byCollections with
      | .ok ps => .ok ps ps.length applyTo
      | .error m =>
          if jsIncludes m "410" then .ok [] 0 applyTo
          else .err "Failed to fetch products with pricing" 500
    else .ok [] 0 applyTo
  else if applyTo = "product-tags" then
    if listTruthy tags then
      match byTags with
      | .ok ps => .ok ps ps.length applyTo
      | .error _ => .err "Failed to fetch products with pricing" 500
    else .ok [] 0 applyTo
  else .err "Invalid applyTo parameter" 400

/-- Counterexample to claim C7 as stated: in the product-tags branch a
"resource gone" failure (message containing "410") is not normalized — the
action returns the generic 500 error response, not a successful empty
result. -/
theorem C7_counterexample :
    jsIncludes "GraphQL errors: status 410 resource gone" "410" = true ∧
    productPricingAction "product-tags" none none none (some ["sale"])
        (.ok []) (.ok []) (.ok [])
        (.error "GraphQL errors: status 410 resource gone") (.ok [])
      = PricingResponse.err "Failed to fetch products with pricing" 500 := by
  exact ⟨by decide, by decide⟩

/-- Claim C7 (amended): the "resource gone" (410) condition is normalized to
a successful empty response only in the specific-products (variant-id and
product-id sub-branches) and product-collections branches of the
resolve-and-price action; in the product-tags and all-products branches the
same condition yields the generic 500 failure response. -/
theorem C7_410_amended (m : String) (ids : List String)
    (h410 : jsIncludes m "410" = true) :
    productPricingAction "specific-products" none (some ("x" :: ids)) none none
        (.error m) (.ok []) (.ok []) (.ok []) (.ok [])
      = PricingResponse.ok [] 0 "specific-products" ∧
    productPricingAction "specific-products" (some ("x" :: ids)) none none none
        (.ok []) (.error m) (.ok []) (.ok []) (.ok [])
      = PricingResponse.ok [] 0 "specific-products" ∧
    productPricingAction "product-collections" none none (some ("x" :: ids)) none
        (.ok []) (.ok []) (.error m) (.ok []) (.ok [])
      = PricingResponse.ok [] 0 "product-collections" ∧
    productPricingAction "product-tags" none none none (some ("x" :: ids))
        (.ok []) (.ok []) (.ok []) (.error m) (.ok [])
      = PricingResponse.err "Failed to fetch products with pricing" 500 ∧
    productPricingAction "all-products" none none none none
        (.ok []) (.ok []) (.ok []) (.ok []) (.error m)
      = PricingResponse.err "Failed to fetch products with pricing" 500 := by
  refine ⟨?_, ?_, ?_, ?_, ?_⟩ <;>
    simp [productPricingAction, listTruthy, h410]

/-- Witness for C7 (amended) at a concrete 410-flagged error message. -/
theorem C7_witness :
    jsIncludes "Received error 410 Gone from Shopify" "410" = true ∧
    productPricingAction "product-collections" none none (some ["c1"]) none
        (.ok []) (.ok []) (.error "Received error 410 Gone from Shopify")
        (.ok []) (.ok [])
      = PricingResponse.ok [] 0 "product-collections" := by
  have h := C7_410_amended "Received error 410 Gone from Shopify" []
    (by decide)
  exact ⟨by decide, h.2.2.1⟩

/-! ## Tag suggestion retrieval

Two implementations exist.  `getAllProductTags` of
`src/app/utils/api.graphql.ts` (lines 3-122) collects tags into a `Set`,
then (lines 85-116) filters by exact/starts-with/contains against the
lowercased trimmed search term, sorts exact-match first, then prefix-match,
then the rest, ties by `localeCompare`, and slices to 20.
`getAllProductTags` of `src/unnamed/part_007` (the `services/api.graphql`
module, lines 3-55) — the one actually called by the tags endpoint
(`src/app/routes/api.tags.tsx` line 31) — collects tags into a `Set` and
returns `Array.from(allTags).slice(0, 20)` with no local filter or ranking.
Both are embedded on the stream of tag strings produced by the paginated
product fetches (the page caps bound external calls only).
-/

/-- JS `Set.add` keeps first-insertion order. -/
def addTagToSet (seen : List String) (t : String) : List String :=
  if t ∈ seen then seen else seen ++ [t]

/-- The contents of a JS `Set` built by adding the list elements in order. -/
def setFromList (l : List String) : List String := l.foldl addTagToSet []

/-- The utils-side collection loop: `if (tag && tag.trim())
allTags.add(tag.trim())`. -/
def collectTagsUtils (raw : List String) : List String :=
  setFromList ((raw.filter fun t => t != "" && jsTrim t != "").map jsTrim)

/-- The services-side collection loop: `allTags.add(tag.trim())`. -/
def collectTagsServices (raw : List String) : List String :=
  setFromList (raw.map jsTrim)

/-- Model of `a.localeCompare(b)` as codepoint comparison. -/
def localeCompareModel (a b : String) : Int :=
  if a < b then -1 else if b < a then 1 else 0

/-- The sort comparator of utils lines 99-109. -/
def tagCompare (searchLower a b : String) : Int :=
  let aLower := jsLower a
  let bLower := jsLower b
  if aLower = searchLower ∧ bLower ≠ searchLower then -1
  else if bLower = searchLower ∧ aLower ≠ searchLower then 1
  else if jsStarts aLower searchLower = true ∧ ¬ jsStarts bLower searchLower = true
    then -1
  else if jsStarts bLower searchLower = true ∧ ¬ jsStarts aLower searchLower = true
    then 1
  else localeCompareModel a b

/-- The relevance class of a tag: 0 exact, 1 prefix-match, 2 otherwise. -/
def tagRank (searchLower t : String) : Nat :=
  if jsLower t = searchLower then 0
  else if jsStarts (jsLower t) searchLower = true then 1
  else 2

/-- The order in which the comparator sorts: `tagCompare ≤ 0`. -/
def tagLe (searchLower : String) (a b : String) : Prop :=
  tagCompare searchLower a b ≤ 0

instance tagLeDec (s : String) : DecidableRel (tagLe s) :=
  fun a b => inferInstanceAs (Decidable (tagCompare s a b ≤ 0))

/-- The alphabetic order of the no-search branch (utils line 112). -/
def localeLe (a b : String) : Prop := localeCompareModel a b ≤ 0

instance localeLeDec : DecidableRel localeLe :=
  fun a b => inferInstanceAs (Decidable (localeCompareModel a b ≤ 0))

/-- The tag-suggestion post-processing of `utils/api.graphql.ts`
`getAllProductTags` (lines 85-116): filter by match kind, sort by the
comparator, slice to 20.  JavaScript sort is modelled by insertion sort;
the comparator never ties on distinct set elements, so any correct sort
produces the same list. -/
def getAllProductTagsUtils (raw : List String) (searchTerm : Option String) :
    List String :=
  let tagsArray := collectTagsUtils raw
  match searchTerm with
  | some st =>
      if jsTrim st = "" then (List.insertionSort localeLe tagsArray).take 20
      else
        let searchLower := jsLower (jsTrim st)
        let filtered := tagsArray.filter fun tag =>
          (jsLower tag == searchLower) || jsStarts (jsLower tag) searchLower
            || jsIncludes (jsLower tag) searchLower
        (List.insertionSort (tagLe searchLower) filtered).take 20
  | none => (List.insertionSort localeLe tagsArray).take 20

/-- The tag-suggestion post-processing of `src/unnamed/part_007`
`getAllProductTags` (line 54): `Array.from(allTags).slice(0, 20)` — the
search term is used only in the external product query, never locally. -/
def getAllProductTagsServices (raw : List String) (searchTerm : Option String) :
    List String :=
  (collectTagsServices raw).take 20

/-- `listStarts` is reflexive. -/
theorem listStarts_refl (l : List Char) : listStarts l l = true := by
  induction l with
  | nil => rfl
  | cons a as ih => simp [listStarts, ih]

/-- An exact match is in particular a prefix match. -/
theorem jsStarts_of_eq {x s : String} (h : x = s) : jsStarts x s = true := by
  subst h
  exact listStarts_refl _

/-- The comparator accepts exactly when the ranked lexicographic order does. -/
theorem tagLe_iff (s a b : String) :
    tagLe s a b ↔
      (tagRank s a < tagRank s b ∨ (tagRank s a = tagRank s b ∧ a ≤ b)) := by
  have hlcm : ∀ x y : String, (localeCompareModel x y ≤ 0) ↔ x ≤ y := by
    intro x y
    unfold localeCompareModel
    by_cases h1 : x < y
    · simp [h1, le_of_lt h1]
    · by_cases h2 : y < x
      · simp [h1, h2, not_le.mpr h2]
      · have hxy : x ≤ y := le_of_not_lt h2
        simp [h1, h2, hxy]
  unfold tagLe tagCompare tagRank
  by_cases hEA : jsLower a = s <;> by_cases hEB : jsLower b = s
  · have hSA := jsStarts_of_eq hEA
    have hSB := jsStarts_of_eq hEB
    simp [hEA, hEB, hSA, hSB, hlcm]
  · have hSA := jsStarts_of_eq hEA
    by_cases hSB : jsStarts (jsLower b) s = true <;>
      simp [hEA, hEB, hSA, hSB]
  · have hSB := jsStarts_of_eq hEB
    by_cases hSA : jsStarts (jsLower a) s = true <;>
      simp [hEA, hEB, hSA, hSB]
  · by_cases hSA : jsStarts (jsLower a) s = true <;>
      by_cases hSB : jsStarts (jsLower b) s = true <;>
      simp [hEA, hEB, hSA, hSB, hlcm]

instance tagLeTotal (s : String) : IsTotal String (tagLe s) := by
  constructor
  intro a b
  rw [tagLe_iff, tagLe_iff]
  rcases Nat.lt_trichotomy (tagRank s a) (tagRank s b) with h | h | h
  · exact Or.inl (Or.inl h)
  · rcases le_total a b with hab | hab
    · exact Or.inl (Or.inr ⟨h, hab⟩)
    · exact Or.inr (Or.inr ⟨h.symm, hab⟩)
  · exact Or.inr (Or.inl h)

instance tagLeTrans (s : String) : IsTrans String (tagLe s) := by
  constructor
  intro a b c hab hbc
  rw [tagLe_iff] at hab hbc ⊢
  rcases hab with h1 | ⟨h1, h1'⟩ <;> rcases hbc with h2 | ⟨h2, h2'⟩
  · exact Or.inl (h1.trans h2)
  · exact Or.inl (h2 ▸ h1)
  · exact Or.inl (h1 ▸ h2)
  · exact Or.inr ⟨h1.trans h2, le_trans h1' h2'⟩

/-- Adding to a JS set preserves distinctness. -/
theorem addTagToSet_nodup {acc : List String} (h : acc.Nodup) (t : String) :
    (addTagToSet acc t).Nodup := by
  unfold addTagToSet
  by_cases hm : t ∈ acc
  · simpa [hm] using h
  · simp [hm, List.nodup_append, h]

/-- A JS set holds distinct elements. -/
theorem setFromList_nodup (l : List String) : (setFromList l).Nodup := by
  suffices h : ∀ acc : List String, acc.Nodup → (l.foldl addTagToSet acc).Nodup by
    exact h [] List.nodup_nil
  induction l with
  | nil => intro acc h; simpa using h
  | cons t ts ih =>
      intro acc h
      exact ih _ (addTagToSet_nodup h t)

/-- Counterexample to claim C8 as stated: the tag endpoint
(`api.tags.tsx` line 31) calls the services implementation, which returns
the collected distinct tags in collection order, unfiltered and unranked —
searching "red" over the collected tags ["Red", "Bored", "Reduce", "Blue"]
returns all four in that order, not ["Red", "Reduce", "Bored"], and keeps
"Blue". -/
theorem C8_counterexample :
    getAllProductTagsServices ["Red", "Bored", "Reduce", "Blue"] (some "red")
      = ["Red", "Bored", "Reduce", "Blue"] ∧
    getAllProductTagsServices ["Red", "Bored", "Reduce", "Blue"] (some "red")
      ≠ ["Red", "Reduce", "Bored"] ∧
    "Blue" ∈ getAllProductTagsServices ["Red", "Bored", "Reduce", "Blue"]
      (some "red") := by
  refine ⟨by decide, by decide, by decide⟩

/-- Claim C8 (amended): the ranking behaviour holds of the
`utils/api.graphql.ts` implementation (which the tags endpoint does not
call): for every collected tag stream and non-blank search term the result
has at most 20 entries, is duplicate-free, contains only collected tags
matching the lowercased search term (exact, prefix or substring), and is
ordered exact-match first, then prefix-match, then substring-match, ties
broken by lexical order.  The endpoint's services implementation instead
returns the first 20 distinct collected tags unranked (see the
counterexample). -/
theorem C8_tags_ranking_amended (raw : List String) (st : String)
    (hst : jsTrim st ≠ "") :
    (getAllProductTagsUtils raw (some st)).length ≤ 20 ∧
    (getAllProductTagsUtils raw (some st)).Nodup ∧
    List.Sorted (fun a b =>
        tagRank (jsLower (jsTrim st)) a < tagRank (jsLower (jsTrim st)) b ∨
        (tagRank (jsLower (jsTrim st)) a = tagRank (jsLower (jsTrim st)) b ∧ a ≤ b))
      (getAllProductTagsUtils raw (some st)) ∧
    (∀ t ∈ getAllProductTagsUtils raw (some st),
      t ∈ collectTagsUtils raw ∧
      (jsLower t = jsLower (jsTrim st) ∨
        jsStarts (jsLower t) (jsLower (jsTrim st)) = true ∨
        jsIncludes (jsLower t) (jsLower (jsTrim st)) = true)) := by
  have hout : getAllProductTagsUtils raw (some st)
      = (List.insertionSort (tagLe (jsLower (jsTrim st)))
          ((collectTagsUtils raw).filter fun tag =>
            (jsLower tag == jsLower (jsTrim st))
              || jsStarts (jsLower tag) (jsLower (jsTrim st))
              || jsIncludes (jsLower tag) (jsLower (jsTrim st)))).take 20 := by
    simp [getAllProductTagsUtils, hst]
  rw [hout]
  set s := jsLower (jsTrim st) with hs
  set filtered := (collectTagsUtils raw).filter fun tag =>
    (jsLower tag == s) || jsStarts (jsLower tag) s || jsIncludes (jsLower tag) s
    with hfil
  refine ⟨List.length_take_le _ _, ?_, ?_, ?_⟩
  · have h1 : filtered.Nodup := (setFromList_nodup _).filter _
    have h2 : (List.insertionSort (tagLe s) filtered).Nodup :=
      (List.perm_insertionSort (tagLe s) filtered).nodup_iff.mpr h1
    exact h2.sublist (List.take_sublist _ _)
  · have h2 : List.Sorted (tagLe s) (List.insertionSort (tagLe s) filtered) :=
      List.sorted_insertionSort (tagLe s) filtered
    have h3 : List.Sorted (tagLe s)
        ((List.insertionSort (tagLe s) filtered).take 20) :=
      h2.sublist (List.take_sublist _ _)
    exact h3.imp fun h => (tagLe_iff s _ _).mp h
  · intro t ht
    have h1 : t ∈ List.insertionSort (tagLe s) filtered :=
      List.take_subset _ _ ht
    have h2 : t ∈ filtered :=
      (List.perm_insertionSort (tagLe s) filtered).subset h1
    rw [hfil, List.mem_filter] at h2
    refine ⟨h2.1, ?_⟩
    have := h2.2
    simp only [Bool.or_eq_true, beq_iff_eq] at this
    tauto

/-- Witness for C8 (amended): the utils implementation ranks the collected
tags ["Red", "Bored", "Reduce", "Blue"] under the search "red" as
["Red", "Reduce", "Bored"], which is duplicate-free and at most 20 long. -/
theorem C8_witness :
    jsTrim "red" ≠ "" ∧
    getAllProductTagsUtils ["Red", "Bored", "Reduce", "Blue"] (some "red")
      = ["Red", "Reduce", "Bored"] ∧
    (getAllProductTagsUtils ["Red", "Bored", "Reduce", "Blue"] (some "red")).Nodup ∧
    (getAllProductTagsUtils ["Red", "Bored", "Reduce", "Blue"] (some "red")).length
      ≤ 20 := by
  have h := C8_tags_ranking_amended ["Red", "Bored", "Reduce", "Blue"] "red"
    (by decide)
  exact ⟨by decide, by decide, h.2.1, h.1⟩

/-! ## Collection resolver dedup

`getProductsByCollectionIdsWithPricing` (`src/app/utils/api.graphql.ts`
lines 312-337, identically `src/unnamed/part_007` lines 208-232): the
products of every resolved (non-null) collection node are walked in order
and written into a JS `Map` keyed by product id; `Array.from(map.values())`
is returned.  A JS `Map.set` on an existing key replaces the value but
keeps the key's original insertion position.  The embedding takes the
per-collection product lists (the GraphQL response after the null-node
filter) as input.
-/

/-- JS `Map.set` keyed by product id over an insertion-ordered entry list. -/
def productsMapSet (m : List ResolvedProduct) (p : ResolvedProduct) :
    List ResolvedProduct :=
  if m.any fun q => q.id == p.id then
    m.map fun q => if q.id = p.id then p else q
  else m ++ [p]

/-- `getProductsByCollectionIdsWithPricing`: flatten all collections into
the id-keyed map, in order, then list the values. -/
def getProductsByCollectionIdsWithPricing
    (collections : List (List ResolvedProduct)) : List ResolvedProduct :=
  collections.foldl (fun acc ps => ps.foldl productsMapSet acc) []

/-- Keep-first deduplication by product id, relative to already-seen ids. -/
def firstOccAux (seen : List String) : List ResolvedProduct → List ResolvedProduct
  | [] => []
  | p :: ps =>
      if p.id ∈ seen then firstOccAux seen ps
      else p :: firstOccAux (p.id :: seen) ps

/-- Keep-first deduplication by product id. -/
def firstOccurrences (l : List ResolvedProduct) : List ResolvedProduct :=
  firstOccAux [] l

/-- `firstOccAux` only consults membership of the seen set. -/
theorem firstOccAux_congr (seen1 seen2 : List String)
    (h : ∀ x, x ∈ seen1 ↔ x ∈ seen2) (l : List ResolvedProduct) :
    firstOccAux seen1 l = firstOccAux seen2 l := by
  induction l generalizing seen1 seen2 with
  | nil => rfl
  | cons p ps ih =>
      unfold firstOccAux
      by_cases hp : p.id ∈ seen1
      · simp [hp, (h p.id).mp hp, ih seen1 seen2 h]
      · have hp2 : p.id ∉ seen2 := fun hx => hp ((h p.id).mpr hx)
        have hcons : ∀ x, x ∈ p.id :: seen1 ↔ x ∈ p.id :: seen2 := by
          intro x
          simp [h x]
        simp [hp, hp2, ih _ _ hcons]

/-- Folding the collections one by one is folding their flattening. -/
theorem foldl_collections_eq_flatten (collections : List (List ResolvedProduct))
    (acc : List ResolvedProduct) :
    collections.foldl (fun acc ps => ps.foldl productsMapSet acc) acc
      = collections.flatten.foldl productsMapSet acc := by
  induction collections generalizing acc with
  | nil => rfl
  | cons ps rest ih =>
      simp only [List.foldl_cons, List.flatten_cons, List.foldl_append]
      exact ih _

/-- Equation lemma: deduplicating the empty stream. -/
theorem firstOccAux_nil (seen : List String) : firstOccAux seen [] = [] := rfl

/-- Equation lemma: deduplicating a cons stream. -/
theorem firstOccAux_cons (seen : List String) (p : ResolvedProduct)
    (ps : List ResolvedProduct) :
    firstOccAux seen (p :: ps)
      = if p.id ∈ seen then firstOccAux seen ps
        else p :: firstOccAux (p.id :: seen) ps := rfl

/-- Folding `Map.set` over a stream whose same-id entries are equal builds
exactly the keep-first deduplication appended to the accumulator. -/
theorem foldl_productsMapSet_eq (l : List ResolvedProduct) :
    ∀ acc : List ResolvedProduct,
    (∀ p ∈ l, ∀ q ∈ acc, p.id = q.id → p = q) →
    (∀ p ∈ l, ∀ q ∈ l, p.id = q.id → p = q) →
    l.foldl productsMapSet acc = acc ++ firstOccAux (acc.map fun r => r.id) l := by
  induction l with
  | nil => intro acc _ _; simp [firstOccAux_nil]
  | cons p ps ih =>
      intro acc hca hcl
      by_cases hmem : p.id ∈ acc.map fun r => r.id
      · have hany : (acc.any fun q => q.id == p.id) = true := by
          simp only [List.mem_map] at hmem
          obtain ⟨q, hq, hqid⟩ := hmem
          exact List.any_eq_true.mpr ⟨q, hq, by simp [hqid]⟩
        have hrepl : (acc.map fun q => if q.id = p.id then p else q) = acc := by
          rw [List.map_congr_left (fun q hq => ?_), List.map_id]
          by_cases hqe : q.id = p.id
          · have : p = q := hca p (List.mem_cons_self p ps) q hq hqe.symm
            simp [hqe, this]
          · simp [hqe]
        have hstep : productsMapSet acc p = acc := by
          rw [productsMapSet, if_pos hany, hrepl]
        rw [List.foldl_cons, hstep,
          ih acc (fun x hx => hca x (List.mem_cons_of_mem p hx))
            (fun x hx y hy => hcl x (List.mem_cons_of_mem p hx) y
              (List.mem_cons_of_mem p hy))]
        rw [firstOccAux_cons, if_pos hmem]
      · have hany : (acc.any fun q => q.id == p.id) = false := by
          rw [List.any_eq_false]
          intro q hq
          simp only [beq_iff_eq]
          intro hqe
          exact hmem (List.mem_map.mpr ⟨q, hq, hqe⟩)
        have hstep : productsMapSet acc p = acc ++ [p] := by
          rw [productsMapSet, if_neg (by simp [hany])]
        have hca2 : ∀ x ∈ ps, ∀ q ∈ acc ++ [p], x.id = q.id → x = q := by
          intro x hx q hq hxq
          rcases List.mem_append.mp hq with hq | hq
          · exact hca x (List.mem_cons_of_mem p hx) q hq hxq
          · rw [List.mem_singleton.mp hq] at hxq ⊢
            exact hcl x (List.mem_cons_of_mem p hx) p (List.mem_cons_self p ps) hxq
        rw [List.foldl_cons, hstep,
          ih (acc ++ [p]) hca2
            (fun x hx y hy => hcl x (List.mem_cons_of_mem p hx) y
              (List.mem_cons_of_mem p hy))]
        have hseen : ((acc ++ [p]).map fun r => r.id)
            = (acc.map fun r => r.id) ++ [p.id] := by
          simp
        rw [hseen,
          firstOccAux_congr ((acc.map fun r => r.id) ++ [p.id])
            (p.id :: acc.map fun r => r.id)
            (by intro x; simp [or_comm]) ps,
          firstOccAux_cons, if_neg hmem]
        simp [List.append_assoc]

/-- Every entry of the deduplicated list comes from the input. -/
theorem firstOccAux_subset (seen : List String) (l : List ResolvedProduct) :
    ∀ q ∈ firstOccAux seen l, q ∈ l := by
  induction l generalizing seen with
  | nil => intro q hq; simpa [firstOccAux] using hq
  | cons p ps ih =>
      intro q hq
      unfold firstOccAux at hq
      by_cases hp : p.id ∈ seen
      · rw [if_pos hp] at hq
        exact List.mem_cons_of_mem p (ih seen q hq)
      · rw [if_neg hp] at hq
        rcases List.mem_cons.mp hq with hq | hq
        · exact hq ▸ List.mem_cons_self p ps
        · exact List.mem_cons_of_mem p (ih _ q hq)

/-- The deduplicated list has distinct ids, none of them already seen. -/
theorem firstOccAux_id_nodup (seen : List String) (l : List ResolvedProduct) :
    ((firstOccAux seen l).map fun r => r.id).Nodup ∧
    ∀ x ∈ (firstOccAux seen l).map fun r => r.id, x ∉ seen := by
  induction l generalizing seen with
  | nil => simp [firstOccAux]
  | cons p ps ih =>
      unfold firstOccAux
      by_cases hp : p.id ∈ seen
      · simpa [hp] using ih seen
      · have h := ih (p.id :: seen)
        rw [if_neg hp]
        constructor
        · rw [List.map_cons, List.nodup_cons]
          refine ⟨fun hx => ?_, h.1⟩
          exact (h.2 p.id hx) (List.mem_cons_self _ _)
        · intro x hx
          rcases List.mem_cons.mp hx with hx | hx
          · exact hx ▸ hp
          · intro hxs
            exact (h.2 x hx) (List.mem_cons_of_mem _ hxs)

/-- Every id reaching the input reaches the deduplicated output. -/
theorem firstOccAux_mem (l : List ResolvedProduct) :
    ∀ (seen : List String) (p : ResolvedProduct), p ∈ l → p.id ∉ seen →
      ∃ q ∈ firstOccAux seen l, q.id = p.id := by
  induction l with
  | nil => intro seen p hp; simp at hp
  | cons a as ih =>
      intro seen p hp hpseen
      unfold firstOccAux
      rcases List.mem_cons.mp hp with hp | hp
      · subst hp
        rw [if_neg hpseen]
        exact ⟨p, List.mem_cons_self _ _, rfl⟩
      · by_cases ha : a.id ∈ seen
        · rw [if_pos ha]
          exact ih seen p hp hpseen
        · rw [if_neg ha]
          by_cases hpa : p.id = a.id
          · exact ⟨a, List.mem_cons_self _ _, hpa.symm⟩
          · obtain ⟨q, hq, hqid⟩ := ih (a.id :: seen) p hp
              (by simp [hpa, hpseen])
            exact ⟨q, List.mem_cons_of_mem _ hq, hqid⟩

/-- Claim C9: the resolver flattens the products of all resolved collections
and deduplicates by product id — under the catalog invariant that entries
with equal ids are equal, the output is exactly the keep-first
deduplication of the flattened stream (so a product in several selected
collections appears exactly once, at its first occurrence), with
duplicate-free ids. -/
theorem C9_collections_dedup (collections : List (List ResolvedProduct))
    (hcons : ∀ p ∈ collections.flatten, ∀ q ∈ collections.flatten,
      p.id = q.id → p = q) :
    getProductsByCollectionIdsWithPricing collections
      = firstOccurrences collections.flatten ∧
    ((getProductsByCollectionIdsWithPricing collections).map fun r => r.id).Nodup ∧
    ∀ p ∈ collections.flatten,
      p ∈ getProductsByCollectionIdsWithPricing collections ∧
      (getProductsByCollectionIdsWithPricing collections).countP
        (fun q => q.id == p.id) = 1 := by
  have h0 : getProductsByCollectionIdsWithPricing collections
      = firstOccurrences collections.flatten := by
    unfold getProductsByCollectionIdsWithPricing firstOccurrences
    rw [foldl_collections_eq_flatten]
    have h := foldl_productsMapSet_eq collections.flatten []
      (by intro p hp q hq; simp at hq) hcons
    simpa using h
  refine ⟨h0, ?_, ?_⟩
  · rw [h0]
    exact (firstOccAux_id_nodup [] collections.flatten).1
  · intro p hp
    have hmem : p ∈ getProductsByCollectionIdsWithPricing collections := by
      rw [h0]
      obtain ⟨q, hq, hqid⟩ := firstOccAux_mem collections.flatten [] p hp (by simp)
      have hqp : q = p := hcons q (firstOccAux_subset [] _ q hq) p hp hqid
      exact hqp ▸ hq
    refine ⟨hmem, ?_⟩
    have hnd : ((getProductsByCollectionIdsWithPricing collections).map
        fun r => r.id).Nodup := by
      rw [h0]
      exact (firstOccAux_id_nodup [] _).1
    have hmid : p.id ∈ (getProductsByCollectionIdsWithPricing collections).map
        fun r => r.id :=
      List.mem_map.mpr ⟨p, hmem, rfl⟩
    have hcount : ((getProductsByCollectionIdsWithPricing collections).map
        fun r => r.id).count p.id = 1 :=
      List.count_eq_one_of_mem hnd hmid
    have hmapP : ((getProductsByCollectionIdsWithPricing collections).map
          fun r => r.id).countP (fun x => x == p.id)
        = (getProductsByCollectionIdsWithPricing collections).countP
          (fun q => q.id == p.id) := by
      rw [List.countP_map]
      rfl
    rw [← hmapP]
    exact hcount

/-- A concrete resolved product used to settle C9. -/
def exProdP1 : ResolvedProduct :=
  { id := "g1", title := "P1", handle := "p1", tags := [], featuredImage := none
    variants := [] }

/-- A concrete resolved product shared by two collections in the C9 witness. -/
def exProdP2 : ResolvedProduct :=
  { id := "g2", title := "P2", handle := "p2", tags := [], featuredImage := none
    variants := [] }

/-- A concrete resolved product used to settle C9. -/
def exProdP3 : ResolvedProduct :=
  { id := "g3", title := "P3", handle := "p3", tags := [], featuredImage := none
    variants := [] }

/-- Witness for C9: two collections sharing a product yield that product
exactly once, first occurrence first. -/
theorem C9_witness :
    getProductsByCollectionIdsWithPricing [[exProdP1, exProdP2], [exProdP2, exProdP3]]
      = [exProdP1, exProdP2, exProdP3] ∧
    (getProductsByCollectionIdsWithPricing
        [[exProdP1, exProdP2], [exProdP2, exProdP3]]).countP
      (fun q => q.id == exProdP2.id) = 1 := by
  have hcons : ∀ p ∈ ([[exProdP1, exProdP2], [exProdP2, exProdP3]] :
      List (List ResolvedProduct)).flatten,
      ∀ q ∈ ([[exProdP1, exProdP2], [exProdP2, exProdP3]] :
        List (List ResolvedProduct)).flatten, p.id = q.id → p = q := by decide
  have h := C9_collections_dedup [[exProdP1, exProdP2], [exProdP2, exProdP3]] hcons
  exact ⟨by decide, (h.2.2 exProdP2 (by decide)).2⟩
